import Mathlib

/-!
Verification of the in-process reactive event broker (the `EventBus` class):
durable channels (named reactive cells with validate/transform hooks,
persistence tiers, onInit/onChange/onClear hooks, debounce/throttle
scheduling for onChange) and instant topics (wrapped listeners with
validate/transform/debounce/throttle/once semantics).

Shallow embedding conventions:
* JS values published on channels are modelled by `Val`, which distinguishes
  `undefined`, `null` and numbers (the broker distinguishes `undefined` from
  `null` when reading from storage, and treats both as "absent" for the
  `isInitialized` flag).
* Caller-supplied hook bodies (`onInit`, `onChange`, `onClear`, subscriber
  callbacks) are external side effects: the broker only invokes them, so we
  record each invocation as an event in a trace.  `validate` and `transform`
  are genuine functions, carried in the configuration.
* `setTimeout`-based timers (TTL, debounce) are modelled explicitly: a
  pending debounce is data `(fireAt, newValue, oldValue)` stored in the
  channel, and a separate `debounceFire` operation models the timer callback
  running at a given time (it refuses to run before `fireAt`).
* `Date.now()` is an explicit `now : Nat` argument to the operations that
  read the clock.
* The external storage backends (sessionStorage/localStorage) are an oracle:
  channel creation takes the value the storage read would return, and writes
  and removals are recorded as trace events.
-/

namespace LithiumBus

/-- A JS value as seen by the broker: `undefined`, `null`, or data
(numbers suffice for the properties verified here). -/
inductive Val where
  | undef
  | null
  | num (n : Int)
deriving DecidableEq, Repr

/-- The broker's "absent value" test: `value !== undefined && value !== null`
negated, i.e. `undefined` and `null` are both absent. -/
def Val.isAbsent : Val → Bool
  | .undef => true
  | .null => true
  | .num _ => false

/-- Storage tiers of the `StorageType` union: `'memory' | 'session' | 'local'`. -/
inductive StorageType where
  | memory
  | session
  | local
deriving DecidableEq, Repr

/-- `ChannelConfig`: per-channel configuration.  Hook presence is a `Bool`
flag (the hook body is an external side effect recorded in the trace);
`validate`/`transform` are real functions; `debounce`/`throttle`/`ttl` use
`0` for "unset", matching JS truthiness of `if (config.debounce)` etc.
`onClearThrows` models whether the caller's `onClear` body throws when
invoked (the broker catches the error). -/
structure ChanConfig where
  initialValue : Val := Val.undef
  storage : StorageType := StorageType.memory
  storageKey : Option String := none
  ttl : Nat := 0
  autoCleanup : Bool := false
  onChange : Bool := false
  onInit : Bool := false
  onClear : Bool := false
  onClearThrows : Bool := false
  validate : Option (Val → Bool) := none
  transform : Option (Val → Val) := none
  debounce : Nat := 0
  throttle : Nat := 0

/-- `config?.onInit` presence. -/
def cfgOnInit : Option ChanConfig → Bool
  | some c => c.onInit
  | none => false

/-- `config?.onChange` presence. -/
def cfgOnChange : Option ChanConfig → Bool
  | some c => c.onChange
  | none => false

/-- `config?.onClear` presence. -/
def cfgOnClear : Option ChanConfig → Bool
  | some c => c.onClear
  | none => false

/-- Whether the configured `onClear` hook throws when invoked. -/
def cfgOnClearThrows : Option ChanConfig → Bool
  | some c => c.onClearThrows
  | none => false

/-- `config.debounce` with JS truthiness (`0` = unset). -/
def cfgDebounce : Option ChanConfig → Nat
  | some c => c.debounce
  | none => 0

/-- `config.throttle` with JS truthiness (`0` = unset). -/
def cfgThrottle : Option ChanConfig → Nat
  | some c => c.throttle
  | none => 0

/-- Evaluation of the validate step: `config?.validate` is either absent
(every value passes) or is applied to the published value. -/
def validatePasses (cfg : Option ChanConfig) (v : Val) : Bool :=
  match cfg with
  | some c =>
    match c.validate with
    | some p => p v
    | none => true
  | none => true

/-- Evaluation of the transform step:
`config?.transform ? config.transform(value) : value`. -/
def transApply (cfg : Option ChanConfig) (v : Val) : Val :=
  match cfg with
  | some c =>
    match c.transform with
    | some f => f v
    | none => v
  | none => v

/-- `Channel`: the per-channel record held in the `channels` map.
`value` is the signal's current value; `ttlTimer` records whether a TTL
timeout handle exists; `debouncePending` is the pending onChange debounce
timer `(fireAt, newValue, oldValue)`; `onChangeLastCall` is the throttle
timestamp. -/
structure Channel where
  value : Val
  storage : StorageType
  storageKey : String
  subscribers : List Nat
  ttl : Nat
  autoCleanup : Bool
  ttlTimer : Bool
  createdAt : Nat
  config : Option ChanConfig
  isInitialized : Bool
  debouncePending : Option (Nat × Val × Val)
  onChangeLastCall : Option Nat

/-- The channel registry: the `channels : Map<string, Channel>` as an
association list in insertion order. -/
structure BusState where
  channels : List (String × Channel)

/-- Observable broker actions recorded in a trace: hook invocations,
subscriber notifications, storage writes/removals, warnings, timer
cancellations, caught hook errors. -/
inductive BEvent where
  | warnValidation (name : String) (v : Val)
  | storageWrite (key : String) (tier : StorageType) (v : Val)
  | storageRemove (key : String) (tier : StorageType)
  | hookInit (name : String) (v : Val)
  | hookChange (name : String) (newV oldV : Val)
  | hookClear (name : String)
  | errorLogged (name : String)
  | subNotify (name : String) (sub : Nat) (v : Val)
  | ttlCancelled (name : String)
  | debounceCancelled (name : String)
deriving DecidableEq, Repr

/-- `this.channels.get(name)` (first matching entry). -/
def findChan (s : BusState) (n : String) : Option Channel :=
  (s.channels.find? (fun p => p.1 = n)).map (·.2)

/-- `this.channels.set(name, ch)`: replace the first entry with this key,
or append when absent. -/
def setChanList (l : List (String × Channel)) (n : String) (c : Channel) :
    List (String × Channel) :=
  match l with
  | [] => [(n, c)]
  | p :: rest => if p.1 = n then (n, c) :: rest else p :: setChanList rest n c

/-- State-level `set`. -/
def setChan (s : BusState) (n : String) (c : Channel) : BusState :=
  ⟨setChanList s.channels n c⟩

/-- `this.channels.delete(name)`. -/
def removeChanList (l : List (String × Channel)) (n : String) :
    List (String × Channel) :=
  l.filter (fun p => !(decide (p.1 = n)))

/-- `EventBus.listChannels()`. -/
def listChannels (s : BusState) : List String :=
  s.channels.map (·.1)

/-- `EventBus.channel(name, config)` restricted to its creation effect
(when the name exists the call returns the existing signal and changes
nothing).  `stored` is the value the storage read would return for the
channel's key (ignored — `undefined` — for the memory tier, where
`getFromStorage` returns without touching any store). -/
def resolvedValue (cfg : Option ChanConfig) (stored : Val) : Val :=
  let c := cfg.getD {}
  let storedValue := if c.storage = StorageType.memory then Val.undef else stored
  if storedValue ≠ Val.undef then storedValue else c.initialValue

/-- The `Channel` record built at creation: resolved value, storage data,
empty subscriber set, TTL timer scheduled iff `ttl` is truthy, stored
config, `isInitialized` iff the resolved value is present, no pending
debounce and no throttle timestamp. -/
def mkChannel (cfg : Option ChanConfig) (stored : Val) (now : Nat)
    (n : String) : Channel :=
  let c := cfg.getD {}
  { value := resolvedValue cfg stored, storage := c.storage,
    storageKey := c.storageKey.getD ("lithium:" ++ n), subscribers := [],
    ttl := c.ttl, autoCleanup := c.autoCleanup,
    ttlTimer := decide (c.ttl ≠ 0), createdAt := now, config := cfg,
    isInitialized := !(resolvedValue cfg stored).isAbsent,
    debouncePending := none, onChangeLastCall := none }

def chanCreate (s : BusState) (n : String) (cfg : Option ChanConfig)
    (stored : Val) (now : Nat) : BusState × List BEvent :=
  match findChan s n with
  | some _ => (s, [])
  | none =>
    let ch := mkChannel cfg stored now n
    (⟨setChanList s.channels n ch⟩,
      if ch.isInitialized && cfgOnInit cfg then [BEvent.hookInit n ch.value]
      else [])

/-- `EventBus.executeOnChange`: debounce has priority (reschedule the
pending timer, capturing the new/old values), else throttle
(`now - lastCall >= throttle` gates an immediate invocation), else invoke
immediately. -/
def executeOnChange (n : String) (ch : Channel) (newV oldV : Val) (now : Nat) :
    Channel × List BEvent :=
  if cfgDebounce ch.config ≠ 0 then
    let pend := some (now + cfgDebounce ch.config, newV, oldV)
    ({ ch with debouncePending := pend }, [])
  else if cfgThrottle ch.config ≠ 0 then
    if cfgThrottle ch.config ≤ now - ch.onChangeLastCall.getD 0 then
      ({ ch with onChangeLastCall := some now }, [BEvent.hookChange n newV oldV])
    else (ch, [])
  else (ch, [BEvent.hookChange n newV oldV])

/-- The accepted-value path of `publish` on an existing channel: transform,
set the signal, persist when not memory-tier, one-shot onInit, onChange
scheduling, subscriber notification — in the source's order. -/
def publishAccepted (n : String) (ch : Channel) (v : Val) (now : Nat) :
    Channel × List BEvent :=
  let tv := transApply ch.config v
  let becomesInit := !ch.isInitialized && !tv.isAbsent
  let ch1 : Channel :=
    { ch with value := tv, isInitialized := ch.isInitialized || becomesInit }
  let r := if cfgOnChange ch.config then executeOnChange n ch1 tv ch.value now
           else (ch1, [])
  let storageEv := if ch.storage = StorageType.memory then []
    else [BEvent.storageWrite ch.storageKey ch.storage tv]
  let initEv := if becomesInit && cfgOnInit ch.config
    then [BEvent.hookInit n tv] else []
  let subEv := ch.subscribers.map (fun sid => BEvent.subNotify n sid tv)
  (r.1, storageEv ++ initEv ++ r.2 ++ subEv)

/-- `EventBus.publish(name, value)`: fast-path creation when the channel
does not exist (config `{ initialValue: value }` only), otherwise
validate → accepted pipeline. -/
def publish (s : BusState) (n : String) (v : Val) (now : Nat) :
    BusState × List BEvent :=
  match findChan s n with
  | none => chanCreate s n (some { initialValue := v }) Val.undef now
  | some ch =>
    if validatePasses ch.config v then
      let r := publishAccepted n ch v now
      (setChan s n r.1, r.2)
    else (s, [BEvent.warnValidation n v])

/-- A sequence of publishes on one channel, each with its own `Date.now()`
timestamp, with traces concatenated. -/
def publishSeq (s : BusState) (n : String) (pubs : List (Nat × Val)) :
    BusState × List BEvent :=
  match pubs with
  | [] => (s, [])
  | (t, v) :: rest =>
    let r := publish s n v t
    let r2 := publishSeq r.1 n rest
    (r2.1, r.2 ++ r2.2)

/-- The debounce timer callback firing at time `now`: refuses to run before
its scheduled time, invokes `onChange` with the values captured at the last
scheduling, and consumes the pending timer. -/
def debounceFire (s : BusState) (n : String) (now : Nat) :
    Option (BusState × List BEvent) :=
  match findChan s n with
  | none => none
  | some ch =>
    match ch.debouncePending with
    | none => none
    | some (fireAt, newV, oldV) =>
      if now < fireAt then none
      else some (setChan s n { ch with debouncePending := none },
        [BEvent.hookChange n newV oldV])

/-- `EventBus.getValue(name)`: `this.channels.get(name)?.signal.get()` —
`undefined` when the channel is missing, else the signal's value. -/
def getValue (s : BusState) (n : String) : Val :=
  match findChan s n with
  | none => Val.undef
  | some ch => ch.value

/-- `EventBus.subscribe(name, callback)` state effect: ensure the channel
exists (creating it with no config when absent), then add the callback
(identified by `cb`) to the subscriber set. -/
def subscribe (s : BusState) (n : String) (cb : Nat) (now : Nat) : BusState :=
  let s1 := match findChan s n with
    | some _ => s
    | none => (chanCreate s n none Val.undef now).1
  match findChan s1 n with
  | some ch =>
    setChan s1 n { ch with subscribers :=
      if cb ∈ ch.subscribers then ch.subscribers else ch.subscribers ++ [cb] }
  | none => s1

/-- `EventBus.clear(name)`: no-op when absent; otherwise invoke `onClear`
(error caught and logged), cancel the TTL timer, cancel the debounce timer,
remove the persisted entry for non-memory tiers, clear subscribers and
delete the channel. -/
def clear (s : BusState) (n : String) : BusState × List BEvent :=
  match findChan s n with
  | none => (s, [])
  | some ch =>
    let e1 := if cfgOnClear ch.config then
        BEvent.hookClear n ::
          (if cfgOnClearThrows ch.config then [BEvent.errorLogged n] else [])
      else []
    let e2 := if ch.ttlTimer then [BEvent.ttlCancelled n] else []
    let e3 := if ch.debouncePending.isSome then [BEvent.debounceCancelled n] else []
    let e4 := if ch.storage = StorageType.memory then []
      else [BEvent.storageRemove ch.storageKey ch.storage]
    (⟨removeChanList s.channels n⟩, e1 ++ e2 ++ e3 ++ e4)

/-- Count of `onInit` invocations for channel `n` in a trace. -/
def countInit (tr : List BEvent) (n : String) : Nat :=
  tr.countP (fun e => match e with
    | BEvent.hookInit m _ => decide (m = n)
    | _ => false)

/-- Count of `onChange` invocations for channel `n` in a trace. -/
def countChange (tr : List BEvent) (n : String) : Nat :=
  tr.countP (fun e => match e with
    | BEvent.hookChange m _ _ => decide (m = n)
    | _ => false)

/-- The channel's value after a run of accepted publishes (each value is
the transform of the published one). -/
def valueAfter (cfg : Option ChanConfig) (v0 : Val) :
    List (Nat × Val) → Val
  | [] => v0
  | p :: rest => valueAfter cfg (transApply cfg p.2) rest

/-- A burst: timestamps are non-decreasing and each publish arrives within
`d` ms of the previous one. -/
def gapsLt (d : Nat) : List (Nat × Val) → Bool
  | [] => true
  | [_] => true
  | a :: b :: rest =>
    (decide (a.1 ≤ b.1) && decide (b.1 - a.1 < d)) && gapsLt d (b :: rest)

/-- `ListenerOptions` for instant-event listeners; `debounce`/`throttle`
use `0` for "unset" (JS truthiness). -/
structure ListenerOptions where
  validate : Option (Val → Bool) := none
  transform : Option (Val → Val) := none
  debounce : Nat := 0
  throttle : Nat := 0
  once : Bool := false

/-- The behaviour of a caller-supplied listener body when invoked: return
normally, throw, or synchronously register another listener on the same
topic (via `EventBus.on`) and return. -/
inductive LAct where
  | pure
  | throwErr
  | register (opts : ListenerOptions) (act : LAct)

/-- How many registrations an action can perform transitively (used to
bound the live-set iteration of `emit`). -/
def LAct.regBound : LAct → Nat
  | .pure => 0
  | .throwErr => 0
  | .register _ a => 1 + a.regBound

/-- A wrapped listener as built by `EventBus.on`: the closure state
(`debounceTimer`, `lastCallTime`, `hasExecuted`) together with the options
and the caller listener's behaviour.  `id` identifies the wrapper in the
topic's set. -/
structure Wrapped where
  id : Nat
  opts : ListenerOptions
  act : LAct
  debounceT : Option (Nat × Val)
  lastCallTime : Nat
  hasExecuted : Bool

/-- The topic registry `eventListeners : Map<string, Set<listener>>` plus
a fresh-id counter for newly built wrappers. -/
structure TState where
  topics : List (String × List Wrapped)
  nextId : Nat

/-- Observable instant-event actions: the caller's listener being invoked
with (transformed) data, and a listener error being caught and logged. -/
inductive TEvent where
  | called (id : Nat) (data : Val)
  | errorCaught (id : Nat)
deriving DecidableEq, Repr

/-- `this.eventListeners.get(name)`. -/
def getTopic (s : TState) (n : String) : Option (List Wrapped) :=
  (s.topics.find? (fun p => p.1 = n)).map (·.2)

/-- `this.eventListeners.set(name, ws)`: replace or append. -/
def setTopicList (l : List (String × List Wrapped)) (n : String)
    (ws : List Wrapped) : List (String × List Wrapped) :=
  match l with
  | [] => [(n, ws)]
  | p :: rest => if p.1 = n then (n, ws) :: rest else p :: setTopicList rest n ws

/-- State-level topic set. -/
def setTopic (s : TState) (n : String) (ws : List Wrapped) : TState :=
  ⟨setTopicList s.topics n ws, s.nextId⟩

/-- `this.eventListeners.delete(name)`. -/
def removeTopic (s : TState) (n : String) : TState :=
  ⟨s.topics.filter (fun p => !(decide (p.1 = n))), s.nextId⟩

/-- `EventBus.on(name, listener, options)`: build a fresh wrapper (closure
state all reset) and add it to the topic's set, creating the topic when
absent.  Returns the new wrapper's id (the unlisten closure is modelled by
`unlisten` applied to that id). -/
def onReg (s : TState) (n : String) (opts : ListenerOptions) (act : LAct) :
    TState × Nat :=
  let ws := (getTopic s n).getD []
  let w : Wrapped :=
    { id := s.nextId, opts := opts, act := act, debounceT := none,
      lastCallTime := 0, hasExecuted := false }
  (⟨setTopicList s.topics n (ws ++ [w]), s.nextId + 1⟩, s.nextId)

/-- `EventBus.once(name, listener)`: sugar for `on` with `{ once: true }`. -/
def onceReg (s : TState) (n : String) (act : LAct) : TState × Nat :=
  onReg s n { once := true } act

/-- The unlisten closure returned by `on`: cancel the pending debounce
timer, remove the wrapper from the set, delete the topic when the set
becomes empty. -/
def unlisten (s : TState) (n : String) (id : Nat) : TState :=
  match getTopic s n with
  | none => s
  | some ws =>
    let ws' := ws.filter (fun w => !(decide (w.id = id)))
    if ws'.isEmpty then removeTopic s n else setTopic s n ws'

/-- Update the closure state of one wrapper in a topic. -/
def updateWrapped (s : TState) (n : String) (id : Nat) (f : Wrapped → Wrapped) :
    TState :=
  match getTopic s n with
  | none => s
  | some ws => setTopic s n (ws.map (fun w => if w.id = id then f w else w))

/-- Running the caller's listener body; `true` means it threw. -/
def runAct (n : String) (a : LAct) (s : TState) : TState × Bool :=
  match a with
  | .pure => (s, false)
  | .throwErr => (s, true)
  | .register opts act => ((onReg s n opts act).1, false)

/-- The `executeListener` closure inside the wrapper: call the caller's
listener; on normal return mark `hasExecuted` and, when `once`, immediately
unregister; a thrown error is caught and logged, skipping both. -/
def executeListener (n : String) (w : Wrapped) (td : Val) (s : TState) :
    TState × List TEvent :=
  let r := runAct n w.act s
  if r.2 then (r.1, [TEvent.called w.id td, TEvent.errorCaught w.id])
  else
    let s2 := updateWrapped r.1 n w.id (fun x => { x with hasExecuted := true })
    (if w.opts.once then unlisten s2 n w.id else s2, [TEvent.called w.id td])

/-- One emission arriving at a wrapped listener: once-already-fired guard,
validate filter, transform, then per-listener debounce/throttle gating
around `executeListener`. -/
def invokeWrapped (n : String) (w : Wrapped) (data : Val) (now : Nat)
    (s : TState) : TState × List TEvent :=
  if w.opts.once && w.hasExecuted then (s, [])
  else if (match w.opts.validate with | some p => !p data | none => false) then
    (s, [])
  else
    let td := match w.opts.transform with | some f => f data | none => data
    if w.opts.debounce ≠ 0 then
      (updateWrapped s n w.id
        (fun x => { x with debounceT := some (now + w.opts.debounce, td) }), [])
    else if w.opts.throttle ≠ 0 then
      if w.opts.throttle ≤ now - w.lastCallTime then
        executeListener n w td
          (updateWrapped s n w.id (fun x => { x with lastCallTime := now }))
      else (s, [])
    else executeListener n w td s

/-- The first wrapper of the topic's current set not yet visited by this
emit (JS `Set.forEach` order: insertion order, values added during
iteration are appended and visited, deleted unvisited values are skipped). -/
def nextUnvisited (ws : List Wrapped) (visited : List Nat) : Option Wrapped :=
  ws.find? (fun w => !visited.contains w.id)

/-- The live-set iteration of `emit`, fuelled (each step visits one wrapper
id at most once; `fuelFor` below is enough for all `LAct` programs). -/
def emitLoop (fuel : Nat) (n : String) (data : Val) (now : Nat)
    (visited : List Nat) (s : TState) : TState × List TEvent :=
  match fuel with
  | 0 => (s, [])
  | fuel + 1 =>
    match nextUnvisited ((getTopic s n).getD []) visited with
    | none => (s, [])
    | some w =>
      let r := invokeWrapped n w data now s
      let r2 := emitLoop fuel n data now (w.id :: visited) r.1
      (r2.1, r.2 ++ r2.2)

/-- Enough fuel to visit every initially present wrapper plus every wrapper
their actions can transitively register. -/
def fuelFor (ws : List Wrapped) : Nat :=
  ws.length + (ws.map (fun w => w.act.regBound)).sum + 1

/-- `EventBus.emit(name, data)`: no-op when no listeners are registered,
otherwise iterate the (live) listener set, isolating per-listener errors. -/
def emit (s : TState) (n : String) (data : Val) (now : Nat) :
    TState × List TEvent :=
  match getTopic s n with
  | none => (s, [])
  | some ws =>
    if ws.isEmpty then (s, [])
    else emitLoop (fuelFor ws) n data now [] s

/-- Count of invocations of wrapper `i`'s caller listener in a trace. -/
def countCalled (tr : List TEvent) (i : Nat) : Nat :=
  tr.countP (fun e => match e with
    | TEvent.called j _ => decide (j = i)
    | _ => false)

def cfgC6 : ChanConfig := { onClear := true, onClearThrows := true }

def chC6 : Channel :=
  { value := Val.num 7, storage := StorageType.session, storageKey := "k",
    subscribers := [3], ttl := 50, autoCleanup := false, ttlTimer := true,
    createdAt := 0, config := some cfgC6, isInitialized := true,
    debouncePending := some (10, Val.num 1, Val.num 0), onChangeLastCall := none }

def sC6 : BusState := ⟨[("a", chC6)]⟩

def cfgPos : ChanConfig :=
  { validate := some (fun v => match v with
      | Val.num x => decide (0 < x)
      | _ => false) }

def chPos : Channel :=
  { value := Val.num 5, storage := StorageType.memory, storageKey := "lithium:a",
    subscribers := [], ttl := 0, autoCleanup := false, ttlTimer := false,
    createdAt := 0, config := some cfgPos, isInitialized := true,
    debouncePending := none, onChangeLastCall := none }

def sPos : BusState := ⟨[("a", chPos)]⟩

def snapListener : Wrapped := ⟨0, {}, LAct.register {} LAct.pure, none, 0, false⟩

def snapState : TState := ⟨[("t", [snapListener])], 1⟩

/-- Whether the named channel exists and has its one-shot-init flag set. -/
def chanInitialized (s : BusState) (n : String) : Bool :=
  match findChan s n with
  | some ch => ch.isInitialized
  | none => false

def cfgInit : ChanConfig := { onInit := true }

def cfgDeb : ChanConfig := { onChange := true, debounce := 10, throttle := 3 }

def chDeb : Channel :=
  { value := Val.undef, storage := StorageType.memory, storageKey := "lithium:a",
    subscribers := [], ttl := 0, autoCleanup := false, ttlTimer := false,
    createdAt := 0, config := some cfgDeb, isInitialized := false,
    debouncePending := none, onChangeLastCall := none }

def sDeb : BusState := ⟨[("a", chDeb)]⟩

def cfgThr : ChanConfig := { onChange := true, throttle := 100 }

def chThr : Channel :=
  { value := Val.undef, storage := StorageType.memory, storageKey := "lithium:a",
    subscribers := [], ttl := 0, autoCleanup := false, ttlTimer := false,
    createdAt := 0, config := some cfgThr, isInitialized := false,
    debouncePending := none, onChangeLastCall := none }

def sThr : BusState := ⟨[("a", chThr)]⟩

theorem findChan_set_self (l : List (String × Channel)) (n : String) (c : Channel) :
    findChan ⟨setChanList l n c⟩ n = some c := by
  induction l with
  | nil => simp [findChan, setChanList]
  | cons p rest ih =>
    by_cases h : p.1 = n
    · simp [findChan, setChanList, h]
    · unfold findChan setChanList
      rw [if_neg h, List.find?_cons_of_neg _ (by simp [h])]
      exact ih

theorem publish_absent (s : BusState) (n : String) (v : Val) (now : Nat)
    (h : findChan s n = none) :
    publish s n v now = chanCreate s n (some { initialValue := v }) Val.undef now := by
  unfold publish
  rw [h]

theorem publish_found (s : BusState) (n : String) (v : Val) (now : Nat)
    (ch : Channel) (h : findChan s n = some ch) :
    publish s n v now =
      if validatePasses ch.config v then
        (setChan s n (publishAccepted n ch v now).1, (publishAccepted n ch v now).2)
      else (s, [BEvent.warnValidation n v]) := by
  unfold publish
  rw [h]

theorem notMem_listChannels_remove (l : List (String × Channel)) (n : String) :
    ¬ n ∈ listChannels ⟨removeChanList l n⟩ := by
  simp only [listChannels, removeChanList, List.mem_map]
  rintro ⟨p, hp, hpn⟩
  rw [List.mem_filter] at hp
  simp [hpn] at hp

theorem findChan_none_notMem (s : BusState) (n : String)
    (h : findChan s n = none) : ¬ n ∈ listChannels s := by
  intro hmem
  simp only [listChannels, List.mem_map] at hmem
  obtain ⟨p, hp, hpn⟩ := hmem
  unfold findChan at h
  rw [Option.map_eq_none', List.find?_eq_none] at h
  exact absurd (by simp [hpn]) (h p hp)

theorem getTopic_set_self (l : List (String × List Wrapped)) (k : Nat)
    (n : String) (ws : List Wrapped) :
    getTopic ⟨setTopicList l n ws, k⟩ n = some ws := by
  induction l with
  | nil => simp [getTopic, setTopicList]
  | cons p rest ih =>
    by_cases h : p.1 = n
    · simp [getTopic, setTopicList, h]
    · unfold getTopic setTopicList
      rw [if_neg h, List.find?_cons_of_neg _ (by simp [h])]
      exact ih

theorem getTopic_remove_self (s : TState) (n : String) :
    getTopic (removeTopic s n) n = none := by
  unfold getTopic removeTopic
  rw [Option.map_eq_none', List.find?_eq_none]
  intro x hx
  rw [List.mem_filter] at hx
  simp only [Bool.not_eq_true'] at hx
  simp [hx.2]

theorem countInit_append (a b : List BEvent) (n : String) :
    countInit (a ++ b) n = countInit a n + countInit b n := by
  simp [countInit, List.countP_append]

theorem countChange_append (a b : List BEvent) (n : String) :
    countChange (a ++ b) n = countChange a n + countChange b n := by
  simp [countChange, List.countP_append]

theorem countChange_nil (n : String) : countChange [] n = 0 := rfl

theorem countChange_ite_storage (c : Prop) [Decidable c] (k : String)
    (tr : StorageType) (tv : Val) (n : String) :
    countChange (if c then [] else [BEvent.storageWrite k tr tv]) n = 0 := by
  split <;> rfl

theorem countChange_ite_init (c : Prop) [Decidable c] (m : String) (tv : Val)
    (n : String) :
    countChange (if c then [BEvent.hookInit m tv] else []) n = 0 := by
  split <;> rfl

theorem countChange_single_hookChange (n : String) (nv ov : Val) :
    countChange [BEvent.hookChange n nv ov] n = 1 := by
  simp [countChange]

theorem countChange_hookChange_cons (n : String) (nv ov : Val)
    (tl : List BEvent) :
    countChange (BEvent.hookChange n nv ov :: tl) n = countChange tl n + 1 := by
  simp [countChange, List.countP_cons]

theorem countInit_subNotify (l : List Nat) (n m : String) (tv : Val) :
    countInit (l.map fun sid => BEvent.subNotify m sid tv) n = 0 := by
  induction l with
  | nil => simp [countInit]
  | cons a l ih => simp [countInit] at ih ⊢

theorem countChange_subNotify (l : List Nat) (n m : String) (tv : Val) :
    countChange (l.map fun sid => BEvent.subNotify m sid tv) n = 0 := by
  induction l with
  | nil => simp [countChange]
  | cons a l ih => simp [countChange] at ih ⊢

theorem executeOnChange_fields (n : String) (ch : Channel) (newV oldV : Val)
    (now : Nat) :
    (executeOnChange n ch newV oldV now).1.config = ch.config ∧
    (executeOnChange n ch newV oldV now).1.isInitialized = ch.isInitialized ∧
    (executeOnChange n ch newV oldV now).1.value = ch.value ∧
    (executeOnChange n ch newV oldV now).1.subscribers = ch.subscribers ∧
    (executeOnChange n ch newV oldV now).1.storage = ch.storage ∧
    (executeOnChange n ch newV oldV now).1.storageKey = ch.storageKey ∧
    (executeOnChange n ch newV oldV now).1.ttlTimer = ch.ttlTimer ∧
    countInit (executeOnChange n ch newV oldV now).2 n = 0 := by
  unfold executeOnChange
  split
  · simp [countInit]
  · split
    · split <;> simp [countInit]
    · simp [countInit]

theorem publishAccepted_parts (n : String) (ch : Channel) (v : Val) (now : Nat) :
    (publishAccepted n ch v now).1.config = ch.config ∧
    (publishAccepted n ch v now).1.value = transApply ch.config v ∧
    (publishAccepted n ch v now).1.isInitialized
      = (ch.isInitialized || !(transApply ch.config v).isAbsent) ∧
    (publishAccepted n ch v now).1.subscribers = ch.subscribers ∧
    (publishAccepted n ch v now).1.storage = ch.storage ∧
    (publishAccepted n ch v now).1.storageKey = ch.storageKey ∧
    (publishAccepted n ch v now).1.ttlTimer = ch.ttlTimer ∧
    countInit (publishAccepted n ch v now).2 n
      = (if (!ch.isInitialized && !(transApply ch.config v).isAbsent)
            && cfgOnInit ch.config then 1 else 0) := by
  have hs : countInit (if ch.storage = StorageType.memory then []
      else [BEvent.storageWrite ch.storageKey ch.storage (transApply ch.config v)]) n
      = 0 := by
    split <;> simp [countInit]
  simp only [publishAccepted]
  by_cases hc : cfgOnChange ch.config = true
  · obtain ⟨h1, h2, h3, h4, h5, h6, h7, h8⟩ := executeOnChange_fields n
      { ch with
        value := transApply ch.config v,
        isInitialized := ch.isInitialized
          || (!ch.isInitialized && !(transApply ch.config v).isAbsent) }
      (transApply ch.config v) ch.value now
    simp only [hc, if_true, ite_true, countInit_append, countInit_subNotify, h8, hs]
    refine ⟨by rw [h1], by rw [h3], ?_, by rw [h4], by rw [h5], by rw [h6],
      by rw [h7], ?_⟩
    · rw [h2]
      cases ch.isInitialized <;> simp
    · cases hb : (!ch.isInitialized && !(transApply ch.config v).isAbsent)
          && cfgOnInit ch.config <;>
        simp [countInit, hb]
  · simp only [hc, if_false, ite_false, countInit_append, countInit_subNotify, hs]
    refine ⟨rfl, rfl, ?_, rfl, rfl, rfl, rfl, ?_⟩
    · cases ch.isInitialized <;> simp
    · cases hb : (!ch.isInitialized && !(transApply ch.config v).isAbsent)
          && cfgOnInit ch.config <;>
        simp [countInit, hb]

theorem chanCreate_absent (s : BusState) (n : String) (cfg : Option ChanConfig)
    (stored : Val) (now : Nat) (h : findChan s n = none) :
    findChan (chanCreate s n cfg stored now).1 n
      = some (mkChannel cfg stored now n) ∧
    countInit (chanCreate s n cfg stored now).2 n
      = (if (mkChannel cfg stored now n).isInitialized && cfgOnInit cfg
          then 1 else 0) := by
  unfold chanCreate
  rw [h]
  refine ⟨findChan_set_self _ _ _, ?_⟩
  cases hb : (mkChannel cfg stored now n).isInitialized && cfgOnInit cfg <;>
    simp [countInit, hb]

theorem publish_step_init (s : BusState) (n : String) (ch : Channel) (v : Val)
    (t : Nat) (h : findChan s n = some ch) :
    ∃ ch', findChan (publish s n v t).1 n = some ch' ∧
      ch'.config = ch.config ∧
      ch'.isInitialized = (ch.isInitialized
        || (validatePasses ch.config v && !(transApply ch.config v).isAbsent)) ∧
      countInit (publish s n v t).2 n =
        (if (!ch.isInitialized
              && (validatePasses ch.config v && !(transApply ch.config v).isAbsent))
            && cfgOnInit ch.config then 1 else 0) := by
  rw [publish_found s n v t ch h]
  by_cases hv : validatePasses ch.config v = true
  · rw [if_pos hv]
    obtain ⟨h1, _, h3, _, _, _, _, h8⟩ := publishAccepted_parts n ch v t
    refine ⟨(publishAccepted n ch v t).1, by simp [setChan, findChan_set_self],
      h1, ?_, ?_⟩
    · rw [h3, hv]
      simp
    · rw [h8, hv]
      simp
  · have hv' : validatePasses ch.config v = false := by
      cases hvv : validatePasses ch.config v
      · rfl
      · exact absurd hvv hv
    rw [if_neg hv]
    refine ⟨ch, h, rfl, by rw [hv']; simp, by rw [hv']; simp [countInit]⟩

theorem publishSeq_init_count (n : String) (pubs : List (Nat × Val)) :
    ∀ (s : BusState) (ch : Channel), findChan s n = some ch →
      ∃ ch', findChan (publishSeq s n pubs).1 n = some ch' ∧
        ch'.config = ch.config ∧
        (ch.isInitialized = true → ch'.isInitialized = true) ∧
        (cfgOnInit ch.config = true →
          countInit (publishSeq s n pubs).2 n
              + (if ch.isInitialized then 1 else 0)
            = (if ch'.isInitialized then 1 else 0)) ∧
        (cfgOnInit ch.config = false →
          countInit (publishSeq s n pubs).2 n = 0) := by
  induction pubs with
  | nil =>
    intro s ch h
    exact ⟨ch, h, rfl, fun hi => hi, fun _ => by simp [publishSeq, countInit],
      fun _ => by simp [publishSeq, countInit]⟩
  | cons p rest ih =>
    intro s ch h
    rcases p with ⟨t, v⟩
    obtain ⟨ch1, hf1, hc1, hi1, hcount1⟩ := publish_step_init s n ch v t h
    obtain ⟨ch', hf', hc', hmono, hcnt, hcnt0⟩ := ih (publish s n v t).1 ch1 hf1
    have htr : (publishSeq s n ((t, v) :: rest)).2
        = (publish s n v t).2 ++ (publishSeq (publish s n v t).1 n rest).2 := by
      simp [publishSeq]
    have hst : (publishSeq s n ((t, v) :: rest)).1
        = (publishSeq (publish s n v t).1 n rest).1 := by
      simp [publishSeq]
    refine ⟨ch', by rw [hst]; exact hf', by rw [hc', hc1], ?_, ?_, ?_⟩
    · intro hb0
      exact hmono (by rw [hi1, hb0]; simp)
    · intro ho
      have e := hcnt (by rw [hc1]; exact ho)
      rw [htr, countInit_append]
      rw [hi1] at e
      rw [ho] at hcount1
      cases hb0 : ch.isInitialized <;>
        cases hcc : validatePasses ch.config v
            && !(transApply ch.config v).isAbsent <;>
        rw [hb0, hcc] at hcount1 e <;>
        (try simp at hcount1) <;>
        (try simp at e) <;>
        (try simp) <;>
        omega
    · intro ho
      have e0 := hcnt0 (by rw [hc1]; exact ho)
      rw [htr, countInit_append, e0]
      rw [ho] at hcount1
      simp at hcount1
      omega

theorem publishAccepted_debounce (n : String) (ch : Channel) (v : Val)
    (now : Nat) (hc : cfgOnChange ch.config = true)
    (hd : cfgDebounce ch.config ≠ 0) :
    (publishAccepted n ch v now).1.config = ch.config ∧
    (publishAccepted n ch v now).1.value = transApply ch.config v ∧
    (publishAccepted n ch v now).1.debouncePending
      = some (now + cfgDebounce ch.config, transApply ch.config v, ch.value) ∧
    countChange (publishAccepted n ch v now).2 n = 0 := by
  refine ⟨?_, ?_, ?_, ?_⟩ <;>
    simp only [publishAccepted, executeOnChange] <;>
    rw [if_pos hc] <;>
    simp [hd, countChange_append, countChange_subNotify, countChange] <;>
    (intro a h1 h2 h3 ha; subst ha; rfl)

theorem publish_step_debounce (s : BusState) (n : String) (ch : Channel)
    (v : Val) (t : Nat) (h : findChan s n = some ch)
    (hc : cfgOnChange ch.config = true) (hd : cfgDebounce ch.config ≠ 0)
    (hv : validatePasses ch.config v = true) :
    ∃ ch', findChan (publish s n v t).1 n = some ch' ∧
      ch'.config = ch.config ∧
      ch'.value = transApply ch.config v ∧
      ch'.debouncePending
        = some (t + cfgDebounce ch.config, transApply ch.config v, ch.value) ∧
      countChange (publish s n v t).2 n = 0 := by
  rw [publish_found s n v t ch h, if_pos hv]
  obtain ⟨h1, h2, h3, h4⟩ := publishAccepted_debounce n ch v t hc hd
  exact ⟨(publishAccepted n ch v t).1, by simp [setChan, findChan_set_self],
    h1, h2, h3, h4⟩

theorem publishSeq_debounce (n : String) (lastP : Nat × Val)
    (pubs : List (Nat × Val)) :
    ∀ (s : BusState) (ch : Channel), findChan s n = some ch →
      cfgOnChange ch.config = true → cfgDebounce ch.config ≠ 0 →
      (∀ p ∈ pubs ++ [lastP], validatePasses ch.config p.2 = true) →
      ∃ ch', findChan (publishSeq s n (pubs ++ [lastP])).1 n = some ch' ∧
        ch'.config = ch.config ∧
        ch'.debouncePending = some (lastP.1 + cfgDebounce ch.config,
          transApply ch.config lastP.2, valueAfter ch.config ch.value pubs) ∧
        countChange (publishSeq s n (pubs ++ [lastP])).2 n = 0 := by
  induction pubs with
  | nil =>
    intro s ch h hc hd hv
    rcases lastP with ⟨t, v⟩
    obtain ⟨ch', hf, hcfg', hval', hpend, hcnt⟩ :=
      publish_step_debounce s n ch v t h hc hd (hv (t, v) (by simp))
    refine ⟨ch', by simpa [publishSeq] using hf, hcfg', by simpa [valueAfter] using hpend, ?_⟩
    simpa [publishSeq, countChange_append, countChange] using hcnt
  | cons p pubs' ih =>
    intro s ch h hc hd hv
    rcases p with ⟨t, v⟩
    obtain ⟨ch1, hf1, hcfg1, hval1, _, hcnt1⟩ :=
      publish_step_debounce s n ch v t h hc hd (hv (t, v) (by simp))
    obtain ⟨ch', hf', hcfg', hpend', hcnt'⟩ :=
      ih (publish s n v t).1 ch1 hf1 (by rw [hcfg1]; exact hc)
        (by rw [hcfg1]; exact hd)
        (by intro q hq; rw [hcfg1]; exact hv q (by simp at hq ⊢; tauto))
    have htr : (publishSeq s n (((t, v) :: pubs') ++ [lastP])).2
        = (publish s n v t).2
          ++ (publishSeq (publish s n v t).1 n (pubs' ++ [lastP])).2 := by
      simp [publishSeq]
    have hst : (publishSeq s n (((t, v) :: pubs') ++ [lastP])).1
        = (publishSeq (publish s n v t).1 n (pubs' ++ [lastP])).1 := by
      simp [publishSeq]
    refine ⟨ch', by rw [hst]; exact hf', by rw [hcfg', hcfg1], ?_, ?_⟩
    · rw [hpend', hcfg1, hval1]
      simp [valueAfter]
    · rw [htr, countChange_append, hcnt1, hcnt']

theorem debounceFire_pending (s : BusState) (n : String) (ch : Channel)
    (fireAt : Nat) (nv ov : Val) (h : findChan s n = some ch)
    (hp : ch.debouncePending = some (fireAt, nv, ov)) :
    (∀ T, T < fireAt → debounceFire s n T = none) ∧
    (∀ T, fireAt ≤ T →
      debounceFire s n T
        = some (setChan s n { ch with debouncePending := none },
            [BEvent.hookChange n nv ov])) := by
  constructor <;> intro T hT <;> unfold debounceFire <;> rw [h]
  · simp [hp, hT]
  · simp [hp, Nat.not_lt.mpr hT]

theorem debounceFire_no_pending (s : BusState) (n : String) (ch : Channel)
    (h : findChan s n = some ch) (hp : ch.debouncePending = none) (T : Nat) :
    debounceFire s n T = none := by
  unfold debounceFire
  rw [h]
  simp [hp]

theorem publishAccepted_throttle (n : String) (ch : Channel) (v : Val)
    (now : Nat) (hc : cfgOnChange ch.config = true)
    (hd : cfgDebounce ch.config = 0) (ht : cfgThrottle ch.config ≠ 0) :
    (publishAccepted n ch v now).1.config = ch.config ∧
    (publishAccepted n ch v now).1.debouncePending = ch.debouncePending ∧
    (if cfgThrottle ch.config ≤ now - ch.onChangeLastCall.getD 0 then
      (publishAccepted n ch v now).1.onChangeLastCall = some now ∧
      countChange (publishAccepted n ch v now).2 n = 1 ∧
      BEvent.hookChange n (transApply ch.config v) ch.value
        ∈ (publishAccepted n ch v now).2
    else
      (publishAccepted n ch v now).1.onChangeLastCall = ch.onChangeLastCall ∧
      countChange (publishAccepted n ch v now).2 n = 0) := by
  by_cases hth : cfgThrottle ch.config ≤ now - ch.onChangeLastCall.getD 0
  · rw [if_pos hth]
    refine ⟨?_, ?_, ?_, ?_, ?_⟩ <;>
      simp only [publishAccepted, executeOnChange] <;>
      rw [if_pos hc] <;>
      simp [hd, ht, hth, countChange_append, countChange_subNotify,
        countChange_ite_storage, countChange_ite_init, countChange_nil,
        countChange_single_hookChange, countChange_hookChange_cons]
  · rw [if_neg hth]
    refine ⟨?_, ?_, ?_, ?_⟩ <;>
      simp only [publishAccepted, executeOnChange] <;>
      rw [if_pos hc] <;>
      simp [hd, ht, hth, countChange_append, countChange_subNotify,
        countChange_ite_storage, countChange_ite_init, countChange_nil,
        countChange_single_hookChange, countChange_hookChange_cons]

theorem publish_step_throttle (s : BusState) (n : String) (ch : Channel)
    (v : Val) (now : Nat) (h : findChan s n = some ch)
    (hc : cfgOnChange ch.config = true) (hd : cfgDebounce ch.config = 0)
    (ht : cfgThrottle ch.config ≠ 0)
    (hv : validatePasses ch.config v = true) :
    ∃ ch', findChan (publish s n v now).1 n = some ch' ∧
      ch'.config = ch.config ∧
      ch'.debouncePending = ch.debouncePending ∧
      (if cfgThrottle ch.config ≤ now - ch.onChangeLastCall.getD 0 then
        ch'.onChangeLastCall = some now ∧
        countChange (publish s n v now).2 n = 1 ∧
        BEvent.hookChange n (transApply ch.config v) ch.value
          ∈ (publish s n v now).2
      else
        ch'.onChangeLastCall = ch.onChangeLastCall ∧
        countChange (publish s n v now).2 n = 0) := by
  rw [publish_found s n v now ch h, if_pos hv]
  obtain ⟨h1, h2, h3⟩ := publishAccepted_throttle n ch v now hc hd ht
  exact ⟨(publishAccepted n ch v now).1,
    by simp [setChan, findChan_set_self], h1, h2, h3⟩

theorem publishSeq_throttle_drop (n : String) (t t1 : Nat)
    (rest : List (Nat × Val)) :
    ∀ (s : BusState) (ch : Channel), findChan s n = some ch →
      cfgOnChange ch.config = true → cfgDebounce ch.config = 0 →
      cfgThrottle ch.config = t → t ≠ 0 →
      ch.onChangeLastCall = some t1 →
      ch.debouncePending = none →
      (∀ p ∈ rest, validatePasses ch.config p.2 = true) →
      (∀ p ∈ rest, p.1 - t1 < t) →
      countChange (publishSeq s n rest).2 n = 0 ∧
      ∃ ch', findChan (publishSeq s n rest).1 n = some ch' ∧
        ch'.config = ch.config ∧
        ch'.debouncePending = none ∧ ch'.onChangeLastCall = some t1 := by
  induction rest with
  | nil =>
    intro s ch h _ _ _ _ hl hp _ _
    exact ⟨by simp [publishSeq, countChange_nil], ch, by simpa [publishSeq] using h,
      rfl, hp, hl⟩
  | cons p rest' ih =>
    intro s ch h hc hd ht ht0 hl hp hv hw
    rcases p with ⟨tp, v⟩
    obtain ⟨ch1, hf1, hcfg1, hpend1, hcond⟩ :=
      publish_step_throttle s n ch v tp h hc hd (by rw [ht]; exact ht0)
        (hv (tp, v) (by simp))
    have hdrop : ¬ cfgThrottle ch.config ≤ tp - ch.onChangeLastCall.getD 0 := by
      rw [ht, hl]
      simp only [Option.getD_some]
      have := hw (tp, v) (by simp)
      omega
    rw [if_neg hdrop] at hcond
    obtain ⟨hlc1, hcnt1⟩ := hcond
    obtain ⟨hcnt', ch', hf', hcfg', hpend', hlc'⟩ :=
      ih (publish s n v tp).1 ch1 hf1 (by rw [hcfg1]; exact hc)
        (by rw [hcfg1]; exact hd) (by rw [hcfg1]; exact ht) ht0
        (by rw [hlc1, hl]) (by rw [hpend1, hp])
        (by intro q hq; rw [hcfg1]; exact hv q (by simp [hq]))
        (by intro q hq; exact hw q (by simp [hq]))
    have htr : (publishSeq s n ((tp, v) :: rest')).2
        = (publish s n v tp).2 ++ (publishSeq (publish s n v tp).1 n rest').2 := by
      simp [publishSeq]
    have hst : (publishSeq s n ((tp, v) :: rest')).1
        = (publishSeq (publish s n v tp).1 n rest').1 := by
      simp [publishSeq]
    refine ⟨?_, ch', by rw [hst]; exact hf', by rw [hcfg', hcfg1], hpend', hlc'⟩
    rw [htr, countChange_append, hcnt1, hcnt']

/-- Claim C1: publishing to a nonexistent channel creates it with
`initialValue = v` and returns at once: the trace is empty (no validate
warning, no storage write, no hook invocation, no subscriber notification,
and no onChange scheduling — the new channel has no pending debounce), and
a subsequent `getValue` returns exactly `v`, untransformed. -/
theorem publish_fastpath_creates (s : BusState) (n : String) (v : Val) (now : Nat)
    (h : findChan s n = none) :
    (publish s n v now).2 = [] ∧
    getValue (publish s n v now).1 n = v ∧
    ∃ ch, findChan (publish s n v now).1 n = some ch ∧
      ch.config = some { initialValue := v } ∧ ch.value = v ∧
      ch.debouncePending = none ∧ ch.subscribers = [] ∧
      ch.storage = StorageType.memory := by
  rw [publish_absent s n v now h]
  unfold chanCreate
  rw [h]
  refine ⟨by simp [cfgOnInit], ?_, ?_⟩
  · unfold getValue
    rw [findChan_set_self]
    simp [mkChannel, resolvedValue]
  · exact ⟨_, findChan_set_self _ _ _, by simp [mkChannel],
      by simp [mkChannel, resolvedValue], rfl, rfl, rfl⟩

theorem publish_fastpath_creates_witness :
    findChan ⟨[]⟩ "a" = none ∧
    ((publish ⟨[]⟩ "a" (Val.num 3) 0).2 = [] ∧
      getValue (publish ⟨[]⟩ "a" (Val.num 3) 0).1 "a" = Val.num 3 ∧
      ∃ ch, findChan (publish ⟨[]⟩ "a" (Val.num 3) 0).1 "a" = some ch ∧
        ch.config = some { initialValue := Val.num 3 } ∧ ch.value = Val.num 3 ∧
        ch.debouncePending = none ∧ ch.subscribers = [] ∧
        ch.storage = StorageType.memory) :=
  ⟨rfl, publish_fastpath_creates ⟨[]⟩ "a" (Val.num 3) 0 rfl⟩

/-- Claim C2: on an existing channel whose validate rejects the value,
publish leaves the broker state literally unchanged and its only effect is
the logged warning: no value change, no storage write, no initialized-flag
change, no hook or onChange scheduling, no subscriber call. -/
theorem publish_validate_reject_noop (s : BusState) (n : String) (ch : Channel)
    (v : Val) (now : Nat) (h : findChan s n = some ch)
    (hv : validatePasses ch.config v = false) :
    publish s n v now = (s, [BEvent.warnValidation n v]) := by
  rw [publish_found s n v now ch h, if_neg (by simp [hv])]

theorem publish_validate_reject_noop_witness :
    findChan sPos "a" = some chPos ∧
    validatePasses chPos.config (Val.num (-1)) = false ∧
    publish sPos "a" (Val.num (-1)) 7 =
      (sPos, [BEvent.warnValidation "a" (Val.num (-1))]) :=
  ⟨rfl, rfl, publish_validate_reject_noop sPos "a" chPos (Val.num (-1)) 7 rfl rfl⟩

/-- Claim C3: over a channel's whole lifetime — creation (with the resolved
initial value) followed by any sequence of publishes — the `onInit` hook is
invoked exactly once when the channel's value has become present (tracked
by the one-shot `isInitialized` flag, which is set at the first moment a
present value appears and is never reset), and zero times when it never
does; in particular no later publish ever re-fires it. -/
theorem onInit_fires_exactly_once (s : BusState) (n : String)
    (cfg : ChanConfig) (stored : Val) (now : Nat) (pubs : List (Nat × Val))
    (habs : findChan s n = none) (hcfg : cfg.onInit = true) :
    countInit ((chanCreate s n (some cfg) stored now).2
        ++ (publishSeq (chanCreate s n (some cfg) stored now).1 n pubs).2) n
      = (if chanInitialized
            (publishSeq (chanCreate s n (some cfg) stored now).1 n pubs).1 n
          then 1 else 0) := by
  obtain ⟨hcr, hcrc⟩ := chanCreate_absent s n (some cfg) stored now habs
  obtain ⟨ch', hf', _, _, hcnt, _⟩ :=
    publishSeq_init_count n pubs (chanCreate s n (some cfg) stored now).1
      (mkChannel (some cfg) stored now n) hcr
  have e := hcnt (by simp [mkChannel, cfgOnInit, hcfg])
  have hfin : chanInitialized
      (publishSeq (chanCreate s n (some cfg) stored now).1 n pubs).1 n
      = ch'.isInitialized := by
    unfold chanInitialized
    rw [hf']
  rw [countInit_append, hcrc, hfin]
  have hco : cfgOnInit (some cfg) = true := by simp [cfgOnInit, hcfg]
  rw [hco]
  cases hI : (mkChannel (some cfg) stored now n).isInitialized <;>
    rw [hI] at e <;> simp at e ⊢ <;> omega

theorem onInit_fires_exactly_once_witness :
    findChan ⟨[]⟩ "a" = none ∧ cfgInit.onInit = true ∧
    countInit ((chanCreate ⟨[]⟩ "a" (some cfgInit) Val.undef 0).2
        ++ (publishSeq (chanCreate ⟨[]⟩ "a" (some cfgInit) Val.undef 0).1 "a"
              [(1, Val.num 1), (2, Val.num 2)]).2) "a"
      = (if chanInitialized
            (publishSeq (chanCreate ⟨[]⟩ "a" (some cfgInit) Val.undef 0).1 "a"
              [(1, Val.num 1), (2, Val.num 2)]).1 "a"
          then 1 else 0) :=
  ⟨rfl, rfl, onInit_fires_exactly_once ⟨[]⟩ "a" cfgInit Val.undef 0
    [(1, Val.num 1), (2, Val.num 2)] rfl rfl⟩

/-- Claim C4: on an existing channel configured with a nonzero debounce `d`
(throttle may also be set — debounce governs), a burst of publishes each
within `d` ms of the previous one runs zero `onChange` invocations during
the burst; afterwards exactly one debounce timer is pending, it cannot fire
before `d` ms after the last publish, and when it fires it invokes
`onChange` exactly once with the transformed value of the last publish as
`newValue` and the channel value read at that last scheduling as
`oldValue` — after which no further invocation is pending. -/
theorem debounce_burst_single_onChange (s : BusState) (n : String)
    (ch : Channel) (d : Nat) (pubs : List (Nat × Val)) (lastP : Nat × Val)
    (h : findChan s n = some ch)
    (hc : cfgOnChange ch.config = true)
    (hd : cfgDebounce ch.config = d) (hd0 : d ≠ 0)
    (hv : ∀ p ∈ pubs ++ [lastP], validatePasses ch.config p.2 = true)
    (hgap : gapsLt d (pubs ++ [lastP]) = true) :
    countChange (publishSeq s n (pubs ++ [lastP])).2 n = 0 ∧
    (∀ T, T < lastP.1 + d →
      debounceFire (publishSeq s n (pubs ++ [lastP])).1 n T = none) ∧
    (∀ T, lastP.1 + d ≤ T → ∃ s2,
      debounceFire (publishSeq s n (pubs ++ [lastP])).1 n T
        = some (s2, [BEvent.hookChange n (transApply ch.config lastP.2)
            (valueAfter ch.config ch.value pubs)]) ∧
      ∀ T2, debounceFire s2 n T2 = none) := by
  obtain ⟨ch', hf, hcfg', hpend, hcnt⟩ :=
    publishSeq_debounce n lastP pubs s ch h hc (by rw [hd]; exact hd0) hv
  rw [hd] at hpend
  obtain ⟨hlt, hge⟩ := debounceFire_pending _ n ch' _ _ _ hf hpend
  refine ⟨hcnt, hlt, ?_⟩
  intro T hT
  refine ⟨_, hge T hT, ?_⟩
  intro T2
  exact debounceFire_no_pending _ n _ (findChan_set_self _ _ _) rfl T2

theorem debounce_burst_single_onChange_witness :
    findChan sDeb "a" = some chDeb ∧
    cfgOnChange chDeb.config = true ∧
    cfgDebounce chDeb.config = 10 ∧
    (∀ p ∈ [((100 : Nat), Val.num 1), (105, Val.num 2)] ++ [(109, Val.num 3)],
      validatePasses chDeb.config p.2 = true) ∧
    gapsLt 10 ([((100 : Nat), Val.num 1), (105, Val.num 2)]
      ++ [(109, Val.num 3)]) = true ∧
    countChange (publishSeq sDeb "a" ([((100 : Nat), Val.num 1), (105, Val.num 2)]
      ++ [(109, Val.num 3)])).2 "a" = 0 ∧
    debounceFire (publishSeq sDeb "a" ([((100 : Nat), Val.num 1), (105, Val.num 2)]
      ++ [(109, Val.num 3)])).1 "a" 118 = none ∧
    ∃ s2, debounceFire (publishSeq sDeb "a"
        ([((100 : Nat), Val.num 1), (105, Val.num 2)] ++ [(109, Val.num 3)])).1
        "a" 119
      = some (s2, [BEvent.hookChange "a" (Val.num 3) (Val.num 2)]) ∧
      ∀ T2, debounceFire s2 "a" T2 = none := by
  have H := debounce_burst_single_onChange sDeb "a" chDeb 10
    [(100, Val.num 1), (105, Val.num 2)] (109, Val.num 3)
    rfl rfl rfl (by decide) (by decide) rfl
  exact ⟨rfl, rfl, rfl, by decide, rfl, H.1, H.2.1 118 (by decide),
    H.2.2 119 (by decide)⟩

/-- Claim C5: on an existing channel with a nonzero throttle `t`, no
debounce and a clean throttle timestamp, a back-to-back burst (all later
publishes within `t` ms of the first) runs exactly one `onChange`: it fires
immediately during the first publish (with the transformed first value and
the previous channel value), the remaining invocations are dropped with no
pending timer left behind (not queued, not deferred), and in general an
invocation executes during a publish exactly when the elapsed time since
the last actual invocation is at least `t`. -/
theorem throttle_burst_first_only (s : BusState) (n : String) (ch : Channel)
    (t t1 : Nat) (v1 : Val) (rest : List (Nat × Val))
    (h : findChan s n = some ch)
    (hc : cfgOnChange ch.config = true)
    (hdb : cfgDebounce ch.config = 0)
    (ht : cfgThrottle ch.config = t) (ht0 : t ≠ 0)
    (hlast : ch.onChangeLastCall = none)
    (hpend : ch.debouncePending = none)
    (hfirst : t ≤ t1)
    (hv1 : validatePasses ch.config v1 = true)
    (hvr : ∀ p ∈ rest, validatePasses ch.config p.2 = true)
    (hrest : ∀ p ∈ rest, p.1 - t1 < t) :
    countChange (publish s n v1 t1).2 n = 1 ∧
    BEvent.hookChange n (transApply ch.config v1) ch.value
      ∈ (publish s n v1 t1).2 ∧
    countChange (publishSeq s n ((t1, v1) :: rest)).2 n = 1 ∧
    (∃ ch', findChan (publishSeq s n ((t1, v1) :: rest)).1 n = some ch' ∧
      ch'.debouncePending = none ∧ ch'.onChangeLastCall = some t1) ∧
    (∀ (s2 : BusState) (ch2 : Channel) (v2 : Val) (now2 : Nat),
      findChan s2 n = some ch2 → ch2.config = ch.config →
      validatePasses ch.config v2 = true →
      countChange (publish s2 n v2 now2).2 n
        = (if t ≤ now2 - ch2.onChangeLastCall.getD 0 then 1 else 0)) := by
  obtain ⟨ch1, hf1, hcfg1, hpend1, hcond⟩ :=
    publish_step_throttle s n ch v1 t1 h hc hdb (by rw [ht]; exact ht0) hv1
  have hfire : cfgThrottle ch.config ≤ t1 - ch.onChangeLastCall.getD 0 := by
    rw [ht, hlast]
    simpa using hfirst
  rw [if_pos hfire] at hcond
  obtain ⟨hlc1, hcnt1, hmem1⟩ := hcond
  obtain ⟨hcntr, ch', hf', hcfg', hpend', hlc'⟩ :=
    publishSeq_throttle_drop n t t1 rest (publish s n v1 t1).1 ch1 hf1
      (by rw [hcfg1]; exact hc) (by rw [hcfg1]; exact hdb)
      (by rw [hcfg1]; exact ht) ht0 hlc1 (by rw [hpend1, hpend])
      (by intro q hq; rw [hcfg1]; exact hvr q hq)
      (by intro q hq; exact hrest q hq)
  have htr : (publishSeq s n ((t1, v1) :: rest)).2
      = (publish s n v1 t1).2 ++ (publishSeq (publish s n v1 t1).1 n rest).2 := by
    simp [publishSeq]
  have hst : (publishSeq s n ((t1, v1) :: rest)).1
      = (publishSeq (publish s n v1 t1).1 n rest).1 := by
    simp [publishSeq]
  refine ⟨hcnt1, hmem1, ?_, ⟨ch', by rw [hst]; exact hf', hpend', hlc'⟩, ?_⟩
  · rw [htr, countChange_append, hcnt1, hcntr]
  · intro s2 ch2 v2 now2 hf2 hcfg2 hv2
    obtain ⟨ch2', _, _, _, hcond2⟩ :=
      publish_step_throttle s2 n ch2 v2 now2 hf2 (by rw [hcfg2]; exact hc)
        (by rw [hcfg2]; exact hdb) (by rw [hcfg2, ht]; exact ht0)
        (by rw [hcfg2]; exact hv2)
    rw [hcfg2, ht] at hcond2
    by_cases hcc : t ≤ now2 - ch2.onChangeLastCall.getD 0
    · rw [if_pos hcc] at hcond2 ⊢
      exact hcond2.2.1
    · rw [if_neg hcc] at hcond2 ⊢
      exact hcond2.2

theorem throttle_burst_first_only_witness :
    findChan sThr "a" = some chThr ∧
    cfgThrottle chThr.config = 100 ∧
    (∀ p ∈ [((1010 : Nat), Val.num 2), (1099, Val.num 3)], p.1 - 1000 < 100) ∧
    countChange (publish sThr "a" (Val.num 1) 1000).2 "a" = 1 ∧
    BEvent.hookChange "a" (Val.num 1) Val.undef
      ∈ (publish sThr "a" (Val.num 1) 1000).2 ∧
    countChange (publishSeq sThr "a"
      ((1000, Val.num 1) :: [(1010, Val.num 2), (1099, Val.num 3)])).2 "a" = 1 ∧
    ∃ ch', findChan (publishSeq sThr "a"
        ((1000, Val.num 1) :: [(1010, Val.num 2), (1099, Val.num 3)])).1 "a"
        = some ch' ∧
      ch'.debouncePending = none ∧ ch'.onChangeLastCall = some 1000 := by
  have H := throttle_burst_first_only sThr "a" chThr 100 1000 (Val.num 1)
    [(1010, Val.num 2), (1099, Val.num 3)] rfl rfl rfl rfl (by decide) rfl rfl
    (by decide) rfl (by decide) (by decide)
  exact ⟨rfl, rfl, by decide, H.1, H.2.1, H.2.2.1, H.2.2.2.1⟩

/-- Claim C6: `clear` on a nonexistent channel is a no-op; on an existing
channel its trace is, in order, the onClear invocation (with a caught error
when the hook throws), the TTL-timer cancellation, the debounce-timer
cancellation and the persisted-entry removal for non-memory tiers — the
later steps appearing regardless of whether onClear throws — the channel is
deleted (so its subscriber set is gone), and afterwards the name is absent
from `listChannels`. -/
theorem clear_steps_and_removal (s : BusState) (n : String) :
    (findChan s n = none → clear s n = (s, [])) ∧
    (∀ ch, findChan s n = some ch →
      clear s n = (⟨removeChanList s.channels n⟩,
        (if cfgOnClear ch.config then
            BEvent.hookClear n ::
              (if cfgOnClearThrows ch.config then [BEvent.errorLogged n] else [])
          else []) ++
        (if ch.ttlTimer then [BEvent.ttlCancelled n] else []) ++
        (if ch.debouncePending.isSome then [BEvent.debounceCancelled n] else []) ++
        (if ch.storage = StorageType.memory then []
          else [BEvent.storageRemove ch.storageKey ch.storage]))) ∧
    ¬ n ∈ listChannels (clear s n).1 := by
  refine ⟨fun h => by unfold clear; rw [h], fun ch h => by unfold clear; rw [h], ?_⟩
  cases h : findChan s n with
  | none =>
    have : clear s n = (s, []) := by unfold clear; rw [h]
    rw [this]
    exact findChan_none_notMem s n h
  | some ch =>
    have : (clear s n).1 = ⟨removeChanList s.channels n⟩ := by unfold clear; rw [h]
    rw [this]
    exact notMem_listChannels_remove s.channels n

theorem clear_steps_and_removal_witness :
    (findChan ⟨[]⟩ "z" = none ∧ clear ⟨[]⟩ "z" = (⟨[]⟩, [])) ∧
    (findChan sC6 "a" = some chC6 ∧
      clear sC6 "a" = (⟨[]⟩,
        [BEvent.hookClear "a", BEvent.errorLogged "a", BEvent.ttlCancelled "a",
          BEvent.debounceCancelled "a",
          BEvent.storageRemove "k" StorageType.session]) ∧
      ¬ "a" ∈ listChannels (clear sC6 "a").1) :=
  ⟨⟨rfl, (clear_steps_and_removal ⟨[]⟩ "z").1 rfl⟩,
    ⟨rfl, (clear_steps_and_removal sC6 "a").2.1 chC6 rfl,
      (clear_steps_and_removal sC6 "a").2.2⟩⟩

/-- Claim C7 counterexample: in `snapState` the topic's listener set holds
no wrapper with id 1 when the emit begins (ids present are only 0, and the
fresh-id counter is 1), yet the emit's trace contains exactly one
invocation of listener 1 — the listener registered during the emit by
listener 0 — so the set of listeners invoked by `emit` is not a snapshot
taken when the emit begins. -/
theorem emit_snapshot_counterexample :
    ((getTopic snapState "t").getD []).all (fun w => !(w.id == 1)) = true ∧
    snapState.nextId = 1 ∧
    countCalled (emit snapState "t" (Val.num 5) 0).2 1 = 1 := by
  exact ⟨rfl, rfl, rfl⟩

/-- Claim C7 (amended): `emit` iterates the live wrapped-listener set in
insertion order, so a listener that is registered on the same topic by a
listener executing during that emit is appended to the set and IS invoked
by that same emit (here: the sole initial listener registers a fresh
default-options listener, and both caller listeners run, in order, within
the one emit — for every payload, time, and once-flag of the new
registration). -/
theorem emit_live_set_invokes_registered (d : Val) (now : Nat) (b : Bool) :
    (emit ⟨[("t", [⟨0, {}, LAct.register { once := b } LAct.pure, none, 0, false⟩])],
        1⟩ "t" d now).2
      = [TEvent.called 0 d, TEvent.called 1 d] := by
  cases b <;> rfl

/-- Claim C8: a listener registered with `once(topic, fn)` and two
successive emits with payloads `x1` then `x2`: the caller's listener runs
exactly once, with the first payload `x1`, and after that first execution
the wrapper has unregistered itself (the topic, now empty, is gone), so the
second emit invokes nothing. -/
theorem once_invoked_exactly_once (s : TState) (nm : String) (x1 x2 : Val)
    (n1 n2 : Nat) (h : getTopic s nm = none) :
    (emit (onceReg s nm LAct.pure).1 nm x1 n1).2
      = [TEvent.called s.nextId x1] ∧
    getTopic (emit (onceReg s nm LAct.pure).1 nm x1 n1).1 nm = none ∧
    (emit (emit (onceReg s nm LAct.pure).1 nm x1 n1).1 nm x2 n2).2 = [] := by
  have e1 : (onceReg s nm LAct.pure).1 =
      ⟨setTopicList s.topics nm [⟨s.nextId, { once := true }, LAct.pure, none, 0, false⟩],
        s.nextId + 1⟩ := by
    unfold onceReg onReg
    rw [h]
    rfl
  rw [e1]
  have ht1 : getTopic ⟨setTopicList s.topics nm
      [⟨s.nextId, { once := true }, LAct.pure, none, 0, false⟩], s.nextId + 1⟩ nm =
      some [⟨s.nextId, { once := true }, LAct.pure, none, 0, false⟩] :=
    getTopic_set_self _ _ _ _
  have key : emit ⟨setTopicList s.topics nm
      [⟨s.nextId, { once := true }, LAct.pure, none, 0, false⟩], s.nextId + 1⟩ nm x1 n1 =
      (removeTopic (setTopic ⟨setTopicList s.topics nm
          [⟨s.nextId, { once := true }, LAct.pure, none, 0, false⟩], s.nextId + 1⟩ nm
          [⟨s.nextId, { once := true }, LAct.pure, none, 0, true⟩]) nm,
        [TEvent.called s.nextId x1]) := by
    unfold emit
    rw [ht1]
    simp [emitLoop, nextUnvisited, ht1, fuelFor, LAct.regBound, invokeWrapped,
      executeListener, runAct, updateWrapped, unlisten, getTopic_set_self,
      getTopic_remove_self, setTopic]
  rw [key]
  refine ⟨rfl, getTopic_remove_self _ _, ?_⟩
  unfold emit
  rw [getTopic_remove_self]

theorem once_invoked_exactly_once_witness :
    getTopic ⟨[], 0⟩ "t" = none ∧
    ((emit (onceReg ⟨[], 0⟩ "t" LAct.pure).1 "t" (Val.num 1) 5).2
        = [TEvent.called 0 (Val.num 1)] ∧
      getTopic (emit (onceReg ⟨[], 0⟩ "t" LAct.pure).1 "t" (Val.num 1) 5).1 "t"
        = none ∧
      (emit (emit (onceReg ⟨[], 0⟩ "t" LAct.pure).1 "t" (Val.num 1) 5).1 "t"
        (Val.num 2) 6).2 = []) :=
  ⟨rfl, once_invoked_exactly_once ⟨[], 0⟩ "t" (Val.num 1) (Val.num 2) 5 6 rfl⟩

/-- Claim C9 (implicit): when a `once` listener throws on its first
invocation, the caught error skips both the has-fired assignment and the
self-unlisten, so the very same wrapper (still registered, still not marked
fired) is invoked again by the next emit of that topic; at-most-once holds
only for listeners that return normally. -/
theorem once_throwing_listener_refires (s : TState) (nm : String) (x1 x2 : Val)
    (n1 n2 : Nat) (h : getTopic s nm = none) :
    (emit (onceReg s nm LAct.throwErr).1 nm x1 n1).2
      = [TEvent.called s.nextId x1, TEvent.errorCaught s.nextId] ∧
    (emit (emit (onceReg s nm LAct.throwErr).1 nm x1 n1).1 nm x2 n2).2
      = [TEvent.called s.nextId x2, TEvent.errorCaught s.nextId] ∧
    getTopic (emit (emit (onceReg s nm LAct.throwErr).1 nm x1 n1).1 nm x2 n2).1 nm
      = some [⟨s.nextId, { once := true }, LAct.throwErr, none, 0, false⟩] := by
  have e1 : (onceReg s nm LAct.throwErr).1 =
      ⟨setTopicList s.topics nm
        [⟨s.nextId, { once := true }, LAct.throwErr, none, 0, false⟩],
        s.nextId + 1⟩ := by
    unfold onceReg onReg
    rw [h]
    rfl
  rw [e1]
  have ht1 : getTopic ⟨setTopicList s.topics nm
      [⟨s.nextId, { once := true }, LAct.throwErr, none, 0, false⟩], s.nextId + 1⟩ nm =
      some [⟨s.nextId, { once := true }, LAct.throwErr, none, 0, false⟩] :=
    getTopic_set_self _ _ _ _
  have key : ∀ (x : Val) (t : Nat),
      emit ⟨setTopicList s.topics nm
        [⟨s.nextId, { once := true }, LAct.throwErr, none, 0, false⟩], s.nextId + 1⟩ nm x t =
      (⟨setTopicList s.topics nm
        [⟨s.nextId, { once := true }, LAct.throwErr, none, 0, false⟩], s.nextId + 1⟩,
        [TEvent.called s.nextId x, TEvent.errorCaught s.nextId]) := by
    intro x t
    unfold emit
    rw [ht1]
    simp [emitLoop, nextUnvisited, ht1, fuelFor, LAct.regBound, invokeWrapped,
      executeListener, runAct]
  rw [key x1 n1]
  rw [key x2 n2]
  exact ⟨rfl, rfl, ht1⟩

theorem once_throwing_listener_refires_witness :
    getTopic ⟨[], 0⟩ "t" = none ∧
    ((emit (onceReg ⟨[], 0⟩ "t" LAct.throwErr).1 "t" (Val.num 1) 5).2
        = [TEvent.called 0 (Val.num 1), TEvent.errorCaught 0] ∧
      (emit (emit (onceReg ⟨[], 0⟩ "t" LAct.throwErr).1 "t" (Val.num 1) 5).1 "t"
        (Val.num 2) 6).2
        = [TEvent.called 0 (Val.num 2), TEvent.errorCaught 0] ∧
      getTopic (emit (emit (onceReg ⟨[], 0⟩ "t" LAct.throwErr).1 "t"
          (Val.num 1) 5).1 "t" (Val.num 2) 6).1 "t"
        = some [⟨0, { once := true }, LAct.throwErr, none, 0, false⟩]) :=
  ⟨rfl, once_throwing_listener_refires ⟨[], 0⟩ "t" (Val.num 1) (Val.num 2) 5 6 rfl⟩

/-- Claim C10: `getValue` returns the same absent result (`undefined`) both
for a missing channel and for an existing channel holding `undefined` —
such as one created by `subscribe` with no initial value — so the absent
result does not distinguish the two situations. -/
theorem getValue_absent_ambiguous (s : BusState) (n : String) (cb now : Nat)
    (h : findChan s n = none) :
    getValue s n = Val.undef ∧
    (findChan (subscribe s n cb now) n).isSome = true ∧
    getValue (subscribe s n cb now) n = Val.undef := by
  refine ⟨by unfold getValue; rw [h], ?_, ?_⟩ <;>
    simp [subscribe, chanCreate, h, setChan, findChan_set_self, getValue,
      mkChannel, resolvedValue]

theorem getValue_absent_ambiguous_witness :
    findChan ⟨[]⟩ "x" = none ∧
    (getValue ⟨[]⟩ "x" = Val.undef ∧
      (findChan (subscribe ⟨[]⟩ "x" 1 0) "x").isSome = true ∧
      getValue (subscribe ⟨[]⟩ "x" 1 0) "x" = Val.undef) :=
  ⟨rfl, getValue_absent_ambiguous ⟨[]⟩ "x" 1 0 rfl⟩

end LithiumBus
